import Mathlib

/-!
Shallow embedding of `the_snake.py`: a snake game on a 640×480 pixel
screen with 20-pixel grid cells.  Coordinates are pixel pairs of
integers; Python's `%` on ints coincides with `Int.emod` (result has the
sign of the divisor), so wrap-around arithmetic is translated with `%`
on `Int`.  Randomness (`random.choice` over `range(0, dim, GRID_SIZE)`)
is modelled by threading an explicit stream of sampled cells; rendering
and the pygame event loop are dropped, keyboard effects are modelled as
abstract events.
-/

namespace TheSnake

abbrev Cell := Int × Int

def SCREEN_WIDTH : Int := 640

def SCREEN_HEIGHT : Int := 480

def GRID_SIZE : Int := 20

def UP : Cell := (0, -1)

def DOWN : Cell := (0, 1)

def LEFT : Cell := (-1, 0)

def RIGHT : Cell := (1, 0)

/-- The list `range(0, bound, GRID_SIZE)` that `Apple.randomize_position`
samples each coordinate from. -/
def sample_range (bound : Int) : List Int :=
  (List.range (bound / GRID_SIZE).toNat).map (fun i => GRID_SIZE * (i : Int))

/-- A cell that `random.choice` can actually produce: both coordinates
drawn from their sampling ranges. -/
def validSample (c : Cell) : Prop :=
  c.1 ∈ sample_range SCREEN_WIDTH ∧ c.2 ∈ sample_range SCREEN_HEIGHT

instance : DecidablePred validSample := fun c => by
  unfold validSample; infer_instance

/-- The full grid: every cell both of whose coordinates lie on the
20-pixel lattice inside the screen. -/
def all_cells : List Cell :=
  (sample_range SCREEN_WIDTH).flatMap
    (fun x => (sample_range SCREEN_HEIGHT).map (fun y => (x, y)))

/-- `Apple.randomize_position(used_cells)`.  The Python samples a cell;
if it lies in `used_cells` it recurses, then assigns
`self.position = (position if position not in used_cells else self.randomize_position(used_cells))`
and `return position` — i.e. on the rejection path the *stored* position
becomes the recursive call's *return value* (that call's own first
sample), while the call returns its own rejected first sample.  The
model threads the stream of `choice` outcomes and returns
`(stored self.position, return value, unconsumed stream)`; `none` means
the stream ran out before any sample was accepted (the Python would
keep recursing). -/
def randomize_position (used_cells : List Cell) :
    List Cell → Option (Cell × Cell × List Cell)
  | [] => none
  | position :: rest =>
    if position ∈ used_cells then
      match randomize_position used_cells rest with
      | none => none
      | some (_, ret, rest2) => some (ret, position, rest2)
    else
      some (position, position, rest)

/-- `get_used_cells(*args)` as called in `main`: the first argument is a
list of coordinate tuples (extended element-wise), the second a bare
coordinate tuple (appended). -/
def get_used_cells (positions : List Cell) (position : Cell) : List Cell :=
  positions ++ [position]

/-- State of the `Snake` object.  `position` is the inherited
`GameObject.position` (the screen centre, never reassigned after
`__init__`), `maxLength` is `_max_length`. -/
structure Snake where
  position : Cell
  direction : Cell
  speed : Int
  positions : List Cell
  last : Option Cell
  maxLength : Nat
deriving DecidableEq

/-- `Snake.update_direction(direction)`.  Translated literally: each
branch tests the *requested* `direction` (not `self.direction`) against
the opposite, so the guard is vacuous and the else-arms are dead. -/
def update_direction (s : Snake) (direction : Cell) : Snake :=
  if direction = UP then
    { s with direction := if direction ≠ DOWN then UP else DOWN }
  else if direction = DOWN then
    { s with direction := if direction ≠ UP then DOWN else UP }
  else if direction = LEFT then
    { s with direction := if direction ≠ RIGHT then LEFT else RIGHT }
  else if direction = RIGHT then
    { s with direction := if direction ≠ LEFT then RIGHT else LEFT }
  else s

/-- `Snake.get_head_position()` with no argument: `self.positions[0]`. -/
def get_head_position (s : Snake) : Cell :=
  s.positions.headI

/-- `Snake.get_head_position(direction)` with a (truthy) direction:
the wrapped next head cell. -/
def get_head_position_dir (s : Snake) (direction : Cell) : Cell :=
  (((get_head_position s).1 + direction.1 * GRID_SIZE) % SCREEN_WIDTH,
   ((get_head_position s).2 + direction.2 * GRID_SIZE) % SCREEN_HEIGHT)

/-- `Snake.move()`: insert the wrapped next head at index 0, pop the
tail into `self.last`. -/
def move (s : Snake) : Snake :=
  let new_head_position := get_head_position_dir s s.direction
  let inserted := new_head_position :: s.positions
  { s with positions := inserted.dropLast, last := inserted.getLast? }

/-- `Snake.reset(direction)`: collapse the body to the stored start
cell. -/
def reset (s : Snake) (direction : Cell) : Snake :=
  { s with positions := [s.position], direction := direction }

/-- The `Snake.max_length` property: reading it updates `_max_length`
when the current length exceeds it; returns (updated snake, value). -/
def max_length (s : Snake) : Snake × Nat :=
  let m := if s.positions.length > s.maxLength then s.positions.length
           else s.maxLength
  ({ s with maxLength := m }, m)

/-- `Snake.change_speed(value)`: `self.speed += value or self.speed`
guarded by `not self.speed + value <= 0`. -/
def change_speed (s : Snake) (value : Int) : Snake :=
  if ¬ (s.speed + value ≤ 0) then
    { s with speed := s.speed + (if value ≠ 0 then value else s.speed) }
  else s

/-- An abstract keyboard event as dispatched by `handle_keys`:
a direction key or a speed key (Q maps to `+1`, Z to `-1`). -/
inductive KeyEvent where
  | dirKey (d : Cell)
  | speedKey (v : Int)
deriving DecidableEq

/-- Effect of one key event on the snake (the `key_mapping` table). -/
def handle_key (s : Snake) : KeyEvent → Snake
  | .dirKey d => update_direction s d
  | .speedKey v => change_speed s v

/-- `handle_keys(snake)`: apply the buffered events in arrival order. -/
def handle_keys (s : Snake) (events : List KeyEvent) : Snake :=
  events.foldl handle_key s

structure GameState where
  snake : Snake
  apple : Cell
  poison : Cell
deriving DecidableEq

/-- Which branch of the per-tick `if`/`elif` chain in `main` fired. -/
inductive TickKind where
  | selfCollision
  | ateApple
  | atePoison
  | plain
deriving DecidableEq

/-- One iteration of the `while True` loop in `main` (drawing calls
dropped).  `events` are the keyboard events of this tick, `choices`
the stream of outcomes of `random.choice`; `none` means a relocation
exhausted the stream.  The final `max_length` read models the
`update_display_caption(snake.speed, snake.max_length)` at the end of
each iteration. -/
def tick (g : GameState) (events : List KeyEvent) (choices : List Cell) :
    Option (GameState × TickKind) :=
  let snake := handle_keys g.snake events
  let snake := move snake
  let snake_head_position := get_head_position snake
  if snake_head_position ∈ snake.positions.drop 1 then
    let snake := reset snake RIGHT
    match randomize_position snake.positions choices with
    | none => none
    | some (apple, _, choices) =>
      match randomize_position (get_used_cells snake.positions apple) choices with
      | none => none
      | some (poison, _, _) =>
        some ({ snake := (max_length snake).1, apple := apple, poison := poison },
              TickKind.selfCollision)
  else if snake_head_position = g.apple then
    let snake := { snake with positions := get_head_position snake :: snake.positions }
    match randomize_position snake.positions choices with
    | none => none
    | some (apple, _, _) =>
      some ({ snake := (max_length snake).1, apple := apple, poison := g.poison },
            TickKind.ateApple)
  else if snake_head_position = g.poison then
    let snake := if snake.positions.length > 1 then
        { snake with positions := snake.positions.dropLast }
      else snake
    match randomize_position snake.positions choices with
    | none => none
    | some (poison, _, _) =>
      some ({ snake := (max_length snake).1, apple := g.apple, poison := poison },
            TickKind.atePoison)
  else
    some ({ snake := (max_length snake).1, apple := g.apple, poison := g.poison },
          TickKind.plain)

/-- The set-up part of `main` before the loop: fresh snake at the
screen centre, then `apple.randomize_position(snake.get_head_position())`
— note the argument is a bare coordinate *tuple*, not a list of cells,
so the Python membership test `position not in used_cells` compares the
sampled pair against the two integers 320 and 240 and never succeeds:
the exclusion list is effectively empty — then
`poison.randomize_position(get_used_cells(snake.positions, apple.position))`. -/
def initGame (choices : List Cell) : Option GameState :=
  let start : Cell := (SCREEN_WIDTH / 2, SCREEN_HEIGHT / 2)
  let snake : Snake :=
    { position := start, direction := RIGHT, speed := 10,
      positions := [start], last := none, maxLength := 1 }
  let snake := (max_length snake).1
  match randomize_position [] choices with
  | none => none
  | some (apple, _, choices) =>
    match randomize_position (get_used_cells snake.positions apple) choices with
    | none => none
    | some (poison, _, _) =>
      some { snake := snake, apple := apple, poison := poison }

/-- Run a sequence of ticks, each with its own events and choice
stream. -/
def ticks (g : GameState) : List (List KeyEvent × List Cell) → Option GameState
  | [] => some g
  | (events, choices) :: rest =>
    match tick g events choices with
    | none => none
    | some (g2, _) => ticks g2 rest

/-- The four direction constants. -/
def directions : List Cell := [UP, DOWN, LEFT, RIGHT]

/-- A grid-aligned cell: both coordinates are multiples of `GRID_SIZE`
inside the screen bounds (a valid cell of the 32×24 grid). -/
def alignedCell (c : Cell) : Prop :=
  0 ≤ c.1 ∧ c.1 < SCREEN_WIDTH ∧ c.1 % GRID_SIZE = 0 ∧
  0 ≤ c.2 ∧ c.2 < SCREEN_HEIGHT ∧ c.2 % GRID_SIZE = 0

instance : DecidablePred alignedCell := fun c => by
  unfold alignedCell; infer_instance

/-- The inductive invariant of reachable game states: every body cell,
the stored start cell and both item cells are grid-aligned, and the
current direction is one of the four unit directions. -/
def AlignedState (g : GameState) : Prop :=
  (∀ c ∈ g.snake.positions, alignedCell c) ∧
  alignedCell g.snake.position ∧
  g.snake.direction ∈ directions ∧
  alignedCell g.apple ∧
  alignedCell g.poison

instance : DecidablePred AlignedState := fun g => by
  unfold AlignedState; infer_instance

/-- A freshly initialised snake (the state after `Snake.__init__`). -/
def snake0 : Snake :=
  { position := (320, 240), direction := RIGHT, speed := 10,
    positions := [(320, 240)], last := none, maxLength := 1 }

/-- Concrete state for the apple-eating scenario of the spec: length-3
snake heading RIGHT, apple on the next head cell (grid cells
(5,5),(4,5),(3,5) and (6,5) scaled by 20 pixels). -/
def gApple : GameState :=
  { snake := { snake0 with
      positions := [(100, 100), (80, 100), (60, 100)]
      maxLength := 3 }
    apple := (120, 100)
    poison := (200, 200) }

/-- A second apple-eating state (one row lower) for the distinctness
invariant. -/
def gApple2 : GameState :=
  { snake := { snake0 with
      positions := [(100, 200), (80, 200), (60, 200)]
      maxLength := 3 }
    apple := (120, 200)
    poison := (300, 300) }

/-- A 2×2 loop of cells with the head about to move DOWN into the
pre-tick tail cell. -/
def gTail : GameState :=
  { snake := { snake0 with
      direction := DOWN
      positions := [(100, 100), (120, 100), (120, 120), (100, 120)]
      maxLength := 4 }
    apple := (0, 0)
    poison := (20, 0) }

/-- A single-cell snake about to make an ordinary move. -/
def gPlain : GameState :=
  { snake := { snake0 with positions := [(100, 100)] }
    apple := (0, 0)
    poison := (20, 0) }

/-- A length-2 snake about to eat the poison. -/
def gPoison : GameState :=
  { snake := { snake0 with
      positions := [(100, 100), (80, 100)]
      maxLength := 2 }
    apple := (0, 0)
    poison := (120, 100) }

/-- A single-cell snake about to make an ordinary move (for the
max-length witness). -/
def gMax : GameState :=
  { snake := { snake0 with
      positions := [(200, 200)]
      maxLength := 7 }
    apple := (0, 0)
    poison := (20, 0) }

/-- The state after the poison tick from `gPoison` with choice stream
[(200,200)]. -/
def gPoisonPost : GameState :=
  { snake := { snake0 with
      positions := [(120, 100)]
      last := some (80, 100)
      maxLength := 2 }
    apple := (0, 0)
    poison := (200, 200) }

/-- The state after the ordinary tick from `gPlain`. -/
def gPlainPost : GameState :=
  { snake := { snake0 with
      positions := [(120, 100)]
      last := some (100, 100) }
    apple := (0, 0)
    poison := (20, 0) }

/-- The state after the ordinary tick from `gMax`. -/
def gMaxPost : GameState :=
  { snake := { snake0 with
      positions := [(220, 200)]
      last := some (200, 200)
      maxLength := 7 }
    apple := (0, 0)
    poison := (20, 0) }

/-- The state produced by `initGame` with choice stream
[(0,0),(20,0)]. -/
def gInit : GameState :=
  { snake := snake0, apple := (0, 0), poison := (20, 0) }

/-- The state after one ordinary tick from `gInit`. -/
def gInitPost : GameState :=
  { snake := { snake0 with
      positions := [(340, 240)]
      last := some (320, 240) }
    apple := (0, 0)
    poison := (20, 0) }

/-- A length-5 snake whose head, moving DOWN, lands on a body cell
that is neither the head nor the tail — a genuine self-collision. -/
def gReset : GameState :=
  { snake := { snake0 with
      direction := DOWN
      positions := [(100, 100), (80, 100), (80, 120), (100, 120), (120, 120)]
      maxLength := 5 }
    apple := (0, 0)
    poison := (20, 0) }

/-- The state after the reset tick from `gReset` with choice stream
[(0,0),(20,0)]. -/
def gResetPost : GameState :=
  { snake := { snake0 with
      positions := [(320, 240)]
      last := some (120, 120)
      maxLength := 5 }
    apple := (0, 0)
    poison := (20, 0) }

theorem handle_key_fields (s : Snake) (e : KeyEvent) :
    (handle_key s e).position = s.position ∧
    (handle_key s e).positions = s.positions ∧
    (handle_key s e).maxLength = s.maxLength := by
  cases e <;> simp only [handle_key, update_direction, change_speed] <;>
    repeat' split
  all_goals exact ⟨rfl, rfl, rfl⟩

theorem update_direction_dir_mem (s : Snake) (d : Cell)
    (h : s.direction ∈ directions) :
    (update_direction s d).direction ∈ directions := by
  simp only [update_direction]
  repeat' split
  all_goals first | exact h | simp [directions]

theorem handle_key_dir_mem (s : Snake) (e : KeyEvent)
    (h : s.direction ∈ directions) : (handle_key s e).direction ∈ directions := by
  cases e with
  | dirKey d => exact update_direction_dir_mem s d h
  | speedKey v =>
    simp only [handle_key, change_speed]
    split <;> exact h

theorem handle_keys_fields (s : Snake) (events : List KeyEvent) :
    (handle_keys s events).position = s.position ∧
    (handle_keys s events).positions = s.positions ∧
    (handle_keys s events).maxLength = s.maxLength := by
  induction events generalizing s with
  | nil => exact ⟨rfl, rfl, rfl⟩
  | cons e evs ih =>
    have h1 := handle_key_fields s e
    have h2 := ih (handle_key s e)
    simp only [handle_keys, List.foldl] at h2 ⊢
    exact ⟨h2.1.trans h1.1, h2.2.1.trans h1.2.1, h2.2.2.trans h1.2.2⟩

theorem handle_keys_dir_mem (s : Snake) (events : List KeyEvent)
    (h : s.direction ∈ directions) :
    (handle_keys s events).direction ∈ directions := by
  induction events generalizing s with
  | nil => exact h
  | cons e evs ih =>
    simp only [handle_keys, List.foldl] at ih ⊢
    exact ih (handle_key s e) (handle_key_dir_mem s e h)

theorem max_length_fields (s : Snake) :
    (max_length s).1.position = s.position ∧
    (max_length s).1.positions = s.positions ∧
    (max_length s).1.direction = s.direction := by
  simp [max_length]

theorem max_length_mono (s : Snake) :
    s.maxLength ≤ (max_length s).1.maxLength := by
  simp only [max_length]
  split <;> omega

theorem randomize_position_mem (used : List Cell) (choices : List Cell) :
    ∀ st r rest, randomize_position used choices = some (st, r, rest) →
      st ∈ choices ∧ r ∈ choices ∧ ∀ c ∈ rest, c ∈ choices := by
  induction choices with
  | nil => intro st r rest h; simp [randomize_position] at h
  | cons p ps ih =>
    intro st r rest h
    simp only [randomize_position] at h
    split at h
    · cases hrec : randomize_position used ps with
      | none => rw [hrec] at h; exact absurd h (by simp)
      | some trip =>
        obtain ⟨st2, r2, rest2⟩ := trip
        rw [hrec] at h
        simp only [Option.some.injEq, Prod.mk.injEq] at h
        obtain ⟨h1, h2, h3⟩ := h
        obtain ⟨m1, m2, m3⟩ := ih st2 r2 rest2 hrec
        subst h1 h2 h3
        exact ⟨List.mem_cons_of_mem p m2, List.mem_cons_self p ps,
               fun c hc => List.mem_cons_of_mem p (m3 c hc)⟩
    · simp only [Option.some.injEq, Prod.mk.injEq] at h
      obtain ⟨h1, h2, h3⟩ := h
      subst h1 h2 h3
      exact ⟨List.mem_cons_self p ps, List.mem_cons_self p ps,
             fun c hc => List.mem_cons_of_mem p hc⟩

theorem validSample_aligned (c : Cell) (h : validSample c) : alignedCell c := by
  obtain ⟨h1, h2⟩ := h
  simp only [sample_range, List.mem_map, List.mem_range, SCREEN_WIDTH,
    SCREEN_HEIGHT, GRID_SIZE] at h1 h2
  obtain ⟨i, hi, hieq⟩ := h1
  obtain ⟨j, hj, hjeq⟩ := h2
  norm_num at hi hj
  unfold alignedCell SCREEN_WIDTH SCREEN_HEIGHT GRID_SIZE
  omega

theorem headI_aligned (l : List Cell) (h : ∀ c ∈ l, alignedCell c) :
    alignedCell l.headI := by
  cases l with
  | nil => decide
  | cons a t => exact h a (List.mem_cons_self a t)

theorem wrap_aligned (s : Snake) (d : Cell)
    (hc : alignedCell (get_head_position s)) (hd : d ∈ directions) :
    alignedCell (get_head_position_dir s d) := by
  simp only [directions, List.mem_cons, List.not_mem_nil, or_false] at hd
  simp only [alignedCell, get_head_position_dir, SCREEN_WIDTH, SCREEN_HEIGHT,
    GRID_SIZE] at hc ⊢
  rcases hd with rfl | rfl | rfl | rfl <;>
    simp only [UP, DOWN, LEFT, RIGHT] <;> omega

/-- C1: the claim says a request for the exact opposite of the current
direction is silently ignored.  In the code the reversal guard compares
the *requested* direction with the opposite instead of the current one,
so it never fires: with current direction RIGHT, `update_direction`
with LEFT (the exact opposite) changes the direction to LEFT. -/
theorem C1_reversal_honoured :
    (update_direction { snake0 with direction := RIGHT } LEFT).direction = LEFT ∧
    LEFT ≠ RIGHT ∧ snake0.direction = RIGHT := by decide

/-- C2: the claim says the stored position after a relocation never
lies in the excluded list.  With excluded cells (0,0) and (20,0) and
the random choices (0,0), (20,0), (40,0) — two rejections before a free
cell is found — the recursion stores the *second rejected* sample
(20,0), which is in the excluded list, even though the free cell (40,0)
had been found. -/
theorem C2_relocation_lands_on_used_cell :
    randomize_position [(0, 0), (20, 0)] [(0, 0), (20, 0), (40, 0)] =
      some ((20, 0), (0, 0), []) ∧
    ((20, 0) : Cell) ∈ [((0, 0) : Cell), (20, 0)] ∧
    ((40, 0) : Cell) ∉ [((0, 0) : Cell), (20, 0)] := by decide

/-- C3: the claim says an apple tick prepends the next head to the
entire pre-tick body with no duplicate.  In the code `move()` has
already popped the tail when the apple branch runs
`positions.insert(0, get_head_position())`, which re-inserts the *new
head* (already at index 0): from body [(5,5),(4,5),(3,5)] (pixels
[(100,100),(80,100),(60,100)]) moving RIGHT onto the apple at (6,5),
the post-tick body is [(6,5),(6,5),(5,5),(4,5)] — head duplicated,
pre-tick tail (3,5) lost — not [(6,5),(5,5),(4,5),(3,5)].  Length 4 and
max-length 4 do hold. -/
theorem C3_grow_duplicates_head :
    (tick gApple [] [(0, 0)]).map
        (fun p => (p.1.snake.positions, p.1.snake.maxLength, p.2)) =
      some ([(120, 100), (120, 100), (100, 100), (80, 100)], 4,
            TickKind.ateApple) ∧
    ([(120, 100), (120, 100), (100, 100), (80, 100)] : List Cell) ≠
      [(120, 100), (100, 100), (80, 100), (60, 100)] := by decide

/-- C4: the claim says after any non-reset tick the body cells are
pairwise distinct.  An apple-eating tick (which does not reset)
duplicates the head cell, so the post-tick body is not `Nodup`. -/
theorem C4_overlap_after_apple_tick :
    (tick gApple2 [] [(40, 40)]).map
        (fun p => (decide p.1.snake.positions.Nodup, p.2)) =
      some (false, TickKind.ateApple) := by decide

/-- C5 counterexample: the claim says a next head equal to the pre-tick
tail cell triggers a reset.  In the code `move()` pops the tail before
the self-collision test, so the tail cell is no longer in
`positions[1:]`: from the 2×2 loop [(100,100),(120,100),(120,120),(100,120)]
moving DOWN, the next head (100,120) is the pre-tick tail (a member of
the pre-tick body beyond the head), yet the tick is an ordinary move —
no reset, length stays 4. -/
theorem C5_tail_cell_does_not_reset :
    get_head_position_dir gTail.snake gTail.snake.direction = (100, 120) ∧
    ((100, 120) : Cell) ∈ gTail.snake.positions.drop 1 ∧
    (tick gTail [] []).map (fun p => (p.1.snake.positions, p.2)) =
      some ([(100, 120), (100, 100), (120, 100), (120, 120)],
            TickKind.plain) := by decide

set_option maxRecDepth 8192 in
/-- C6 counterexample: the claim says a relocation whose excluded set
covers the whole grid fails with a named `NoFreeCellError`.  The code
has no such error: every sample is rejected and the recursion never
completes — here, with the full 32×24 grid excluded, no stream of
choices produces any outcome at all. -/
theorem C6_no_error_result_on_full_grid :
    all_cells.length = 768 ∧
    randomize_position all_cells [(0, 0), (20, 0), (620, 460)] = none := by
  decide

theorem move_maxLength (s : Snake) : (move s).maxLength = s.maxLength := rfl

theorem reset_maxLength (s : Snake) (d : Cell) :
    (reset s d).maxLength = s.maxLength := rfl

theorem move_positions_cons (s : Snake) (p0 : Cell) (rest : List Cell)
    (hpos : s.positions = p0 :: rest) :
    (move s).positions =
      get_head_position_dir s s.direction :: (p0 :: rest).dropLast := by
  show ((get_head_position_dir s s.direction) :: s.positions).dropLast = _
  rw [hpos, List.dropLast_cons₂]

theorem wrap_ne_head (s : Snake) (d : Cell) (hd : d ∈ directions) :
    get_head_position_dir s d ≠ get_head_position s := by
  simp only [directions, List.mem_cons, List.not_mem_nil, or_false] at hd
  simp only [get_head_position_dir, SCREEN_WIDTH, SCREEN_HEIGHT, GRID_SIZE]
  intro heq
  rw [Prod.ext_iff] at heq
  obtain ⟨h1, h2⟩ := heq
  rcases hd with rfl | rfl | rfl | rfl <;>
    simp only [UP, DOWN, LEFT, RIGHT] at h1 h2 <;> omega

theorem mem_all_cells_of_valid (c : Cell) (h : validSample c) :
    c ∈ all_cells := by
  obtain ⟨h1, h2⟩ := h
  simp only [all_cells, List.mem_flatMap, List.mem_map]
  exact ⟨c.1, h1, c.2, h2, rfl⟩

theorem tick_maxLength_mono (g : GameState) (events : List KeyEvent)
    (choices : List Cell) (g' : GameState) (k : TickKind)
    (h : tick g events choices = some (g', k)) :
    g.snake.maxLength ≤ g'.snake.maxLength := by
  have hf := (handle_keys_fields g.snake events).2.2
  simp only [tick] at h
  repeat' split at h
  all_goals first
    | exact Option.noConfusion h
    | (simp only [Option.some.injEq, Prod.mk.injEq] at h
       obtain ⟨hg, hk⟩ := h
       subst hg
       refine le_trans (le_of_eq ?_) (max_length_mono _)
       simp [move, reset, hf])

theorem ticks_maxLength_mono (runs : List (List KeyEvent × List Cell)) :
    ∀ g g', ticks g runs = some g' →
      g.snake.maxLength ≤ g'.snake.maxLength := by
  induction runs with
  | nil =>
    intro g g' h
    simp only [ticks, Option.some.injEq] at h
    exact le_of_eq (by rw [h])
  | cons r rs ih =>
    intro g g' h
    obtain ⟨events, choices⟩ := r
    simp only [ticks] at h
    cases htick : tick g events choices with
    | none => rw [htick] at h; exact Option.noConfusion h
    | some p =>
      obtain ⟨g2, k⟩ := p
      rw [htick] at h
      exact le_trans (tick_maxLength_mono g events choices g2 k htick)
        (ih g2 g' h)

theorem move_position (s : Snake) : (move s).position = s.position := rfl

theorem move_direction (s : Snake) : (move s).direction = s.direction := rfl

theorem reset_positions (s : Snake) (d : Cell) :
    (reset s d).positions = [s.position] := rfl

theorem reset_position (s : Snake) (d : Cell) :
    (reset s d).position = s.position := rfl

theorem reset_direction (s : Snake) (d : Cell) :
    (reset s d).direction = d := rfl

theorem max_length_positions (s : Snake) :
    (max_length s).1.positions = s.positions := rfl

theorem max_length_position (s : Snake) :
    (max_length s).1.position = s.position := rfl

theorem max_length_direction (s : Snake) :
    (max_length s).1.direction = s.direction := rfl

theorem tick_preserves_aligned (g : GameState) (events : List KeyEvent)
    (choices : List Cell) (g' : GameState) (k : TickKind)
    (hg : AlignedState g) (hch : ∀ c ∈ choices, validSample c)
    (h : tick g events choices = some (g', k)) : AlignedState g' := by
  obtain ⟨hpos, hstart, hdir, hap, hpo⟩ := hg
  have hf := handle_keys_fields g.snake events
  have hd1 : (handle_keys g.snake events).direction ∈ directions :=
    handle_keys_dir_mem g.snake events hdir
  set s1 := handle_keys g.snake events with hs1
  have hpos1 : ∀ c ∈ s1.positions, alignedCell c := by rw [hf.2.1]; exact hpos
  have hstart1 : alignedCell s1.position := by rw [hf.1]; exact hstart
  have hnh : alignedCell (get_head_position_dir s1 s1.direction) :=
    wrap_aligned s1 s1.direction (headI_aligned s1.positions hpos1) hd1
  set s2 := move s1 with hs2
  have hpos2 : ∀ c ∈ s2.positions, alignedCell c := by
    intro c hc
    have hcl : c ∈ (get_head_position_dir s1 s1.direction ::
        s1.positions).dropLast := hc
    have hc2 := List.mem_of_mem_dropLast hcl
    rcases List.mem_cons.mp hc2 with rfl | hc3
    · exact hnh
    · exact hpos1 c hc3
  have hstart2 : alignedCell s2.position := hstart1
  have hd2 : s2.direction ∈ directions := hd1
  simp only [tick] at h
  rw [← hs1, ← hs2] at h
  by_cases hc1 : get_head_position s2 ∈ s2.positions.drop 1
  · rw [if_pos hc1] at h
    dsimp only [reset] at h
    cases hr1 : randomize_position [s2.position] choices with
    | none => rw [hr1] at h; exact Option.noConfusion h
    | some trip1 =>
      obtain ⟨ap, r1, rest1⟩ := trip1
      rw [hr1] at h
      dsimp only at h
      cases hr2 : randomize_position (get_used_cells [s2.position] ap) rest1 with
      | none => rw [hr2] at h; exact Option.noConfusion h
      | some trip2 =>
        obtain ⟨po, r2, rest2⟩ := trip2
        rw [hr2] at h
        simp only [Option.some.injEq, Prod.mk.injEq] at h
        obtain ⟨hg2, hk⟩ := h
        subst hg2
        have hm1 := randomize_position_mem [s2.position] choices ap r1 rest1 hr1
        have hm2 := randomize_position_mem (get_used_cells [s2.position] ap)
          rest1 po r2 rest2 hr2
        simp only [AlignedState]
        refine ⟨?_, hstart2, ?_, ?_, ?_⟩
        · intro c hc
          simp only [max_length] at hc
          rcases List.mem_singleton.mp hc with rfl
          exact hstart2
        · show RIGHT ∈ directions
          decide
        · exact validSample_aligned ap (hch ap hm1.1)
        · exact validSample_aligned po (hch po (hm1.2.2 po hm2.1))
  · rw [if_neg hc1] at h
    by_cases hc2 : get_head_position s2 = g.apple
    · rw [if_pos hc2] at h
      cases hr : randomize_position (get_head_position s2 :: s2.positions)
          choices with
      | none => rw [hr] at h; exact Option.noConfusion h
      | some trip =>
        obtain ⟨ap, r1, rest1⟩ := trip
        rw [hr] at h
        simp only [Option.some.injEq, Prod.mk.injEq] at h
        obtain ⟨hg2, hk⟩ := h
        subst hg2
        have hm1 := randomize_position_mem _ choices ap r1 rest1 hr
        simp only [AlignedState]
        refine ⟨?_, hstart2, hd2, validSample_aligned ap (hch ap hm1.1), hpo⟩
        intro c hc
        simp only [max_length] at hc
        rcases List.mem_cons.mp hc with rfl | hc3
        · exact headI_aligned s2.positions hpos2
        · exact hpos2 c hc3
    · rw [if_neg hc2] at h
      by_cases hc3 : get_head_position s2 = g.poison
      · rw [if_pos hc3] at h
        by_cases hlen : s2.positions.length > 1
        · rw [if_pos hlen] at h
          dsimp only at h
          cases hr : randomize_position s2.positions.dropLast choices with
          | none => rw [hr] at h; exact Option.noConfusion h
          | some trip =>
            obtain ⟨po, r1, rest1⟩ := trip
            rw [hr] at h
            simp only [Option.some.injEq, Prod.mk.injEq] at h
            obtain ⟨hg2, hk⟩ := h
            subst hg2
            have hm1 := randomize_position_mem _ choices po r1 rest1 hr
            simp only [AlignedState]
            refine ⟨?_, hstart2, hd2, hap,
              validSample_aligned po (hch po hm1.1)⟩
            intro c hc
            simp only [max_length] at hc
            exact hpos2 c (List.mem_of_mem_dropLast hc)
        · rw [if_neg hlen] at h
          cases hr : randomize_position s2.positions choices with
          | none => rw [hr] at h; exact Option.noConfusion h
          | some trip =>
            obtain ⟨po, r1, rest1⟩ := trip
            rw [hr] at h
            simp only [Option.some.injEq, Prod.mk.injEq] at h
            obtain ⟨hg2, hk⟩ := h
            subst hg2
            have hm1 := randomize_position_mem _ choices po r1 rest1 hr
            simp only [AlignedState]
            refine ⟨?_, hstart2, hd2, hap,
              validSample_aligned po (hch po hm1.1)⟩
            intro c hc
            simp only [max_length] at hc
            exact hpos2 c hc
      · rw [if_neg hc3] at h
        simp only [Option.some.injEq, Prod.mk.injEq] at h
        obtain ⟨hg2, hk⟩ := h
        subst hg2
        simp only [AlignedState]
        refine ⟨?_, hstart2, hd2, hap, hpo⟩
        intro c hc
        simp only [max_length] at hc
        exact hpos2 c hc

theorem ticks_preserves_aligned (runs : List (List KeyEvent × List Cell)) :
    ∀ g g', AlignedState g → (∀ r ∈ runs, ∀ c ∈ r.2, validSample c) →
      ticks g runs = some g' → AlignedState g' := by
  induction runs with
  | nil =>
    intro g g' hg _ h
    simp only [ticks, Option.some.injEq] at h
    rw [← h]
    exact hg
  | cons r rs ih =>
    intro g g' hg hv h
    obtain ⟨events, choices⟩ := r
    simp only [ticks] at h
    cases htick : tick g events choices with
    | none => rw [htick] at h; exact Option.noConfusion h
    | some p =>
      obtain ⟨g2, k⟩ := p
      rw [htick] at h
      have hg2 := tick_preserves_aligned g events choices g2 k hg
        (hv (events, choices) (List.mem_cons_self _ _)) htick
      exact ih g2 g' hg2 (fun r2 hr2 => hv r2 (List.mem_cons_of_mem _ hr2)) h

theorem initGame_aligned (choices : List Cell) (g0 : GameState)
    (hch : ∀ c ∈ choices, validSample c) (h : initGame choices = some g0) :
    AlignedState g0 := by
  simp only [initGame] at h
  cases hr1 : randomize_position [] choices with
  | none => rw [hr1] at h; exact Option.noConfusion h
  | some trip1 =>
    obtain ⟨ap, r1, rest1⟩ := trip1
    rw [hr1] at h
    dsimp only at h
    cases hr2 : randomize_position
        (get_used_cells
          (max_length
            { position := (SCREEN_WIDTH / 2, SCREEN_HEIGHT / 2),
              direction := RIGHT, speed := 10,
              positions := [(SCREEN_WIDTH / 2, SCREEN_HEIGHT / 2)],
              last := none, maxLength := 1 }).1.positions ap) rest1 with
    | none => rw [hr2] at h; exact Option.noConfusion h
    | some trip2 =>
      obtain ⟨po, r2, rest2⟩ := trip2
      rw [hr2] at h
      simp only [Option.some.injEq] at h
      subst h
      have hm1 := randomize_position_mem [] choices ap r1 rest1 hr1
      have hm2 := randomize_position_mem _ rest1 po r2 rest2 hr2
      simp only [AlignedState]
      refine ⟨by decide, by decide, by decide, ?_, ?_⟩
      · exact validSample_aligned ap (hch ap hm1.1)
      · exact validSample_aligned po (hch po (hm1.2.2 po hm2.1))

/-- C5 (amended): a tick resets if and only if the wrapped next head
lies in the pre-tick body with the head AND the tail excluded.  Because
`move()` pops the tail before the membership test, the check is against
`positions[1:]` of the post-move body, i.e. the pre-tick body minus its
last cell; the next head never equals the pre-tick head, so membership
there reduces to membership in body-minus-head-minus-tail.  When the
reset fires the body collapses to the stored start cell, the direction
becomes RIGHT, and both items are relocated: the beneficial item by a
call whose excluded list is exactly the fresh single-cell body, the
harmful item by a call whose excluded list is the fresh body plus the
beneficial item's new cell. -/
theorem C5_reset_condition (g : GameState) (choices : List Cell)
    (g' : GameState) (k : TickKind) (p0 : Cell) (rest : List Cell)
    (hpos : g.snake.positions = p0 :: rest)
    (hd : g.snake.direction ∈ directions)
    (h : tick g [] choices = some (g', k)) :
    (k = TickKind.selfCollision ↔
        get_head_position_dir g.snake g.snake.direction ∈ rest.dropLast) ∧
    (k = TickKind.selfCollision →
        g'.snake.positions = [g.snake.position] ∧
        g'.snake.direction = RIGHT ∧
        (∃ r1 rest1, randomize_position g'.snake.positions choices =
            some (g'.apple, r1, rest1) ∧
          ∃ r2 rest2, randomize_position
              (get_used_cells g'.snake.positions g'.apple) rest1 =
            some (g'.poison, r2, rest2))) := by
  have hm := move_positions_cons g.snake p0 rest hpos
  have hhead : get_head_position g.snake = p0 := by
    simp [get_head_position, hpos]
  have hne : get_head_position_dir g.snake g.snake.direction ≠ p0 := by
    have hw := wrap_ne_head g.snake g.snake.direction hd
    rwa [hhead] at hw
  have hcond : (get_head_position_dir g.snake g.snake.direction ∈
      (p0 :: rest).dropLast) ↔
      get_head_position_dir g.snake g.snake.direction ∈ rest.dropLast := by
    cases rest with
    | nil => simp [List.dropLast]
    | cons r rs =>
      rw [List.dropLast_cons₂]
      simp only [List.mem_cons]
      constructor
      · rintro (hcp | hm2)
        · exact absurd hcp hne
        · exact hm2
      · exact fun hm2 => Or.inr hm2
  simp only [tick, handle_keys, List.foldl, get_head_position, hm,
    List.headI, List.drop_succ_cons, List.drop_zero] at h
  by_cases hcol : get_head_position_dir g.snake g.snake.direction ∈ rest.dropLast
  · rw [if_pos (hcond.mpr hcol)] at h
    dsimp only [reset] at h
    cases hr1 : randomize_position [(move g.snake).position] choices with
    | none => rw [hr1] at h; exact Option.noConfusion h
    | some trip1 =>
      obtain ⟨ap, r1, rest1⟩ := trip1
      rw [hr1] at h
      dsimp only at h
      cases hr2 : randomize_position
          (get_used_cells [(move g.snake).position] ap) rest1 with
      | none => rw [hr2] at h; exact Option.noConfusion h
      | some trip2 =>
        obtain ⟨po, r2, rest2⟩ := trip2
        rw [hr2] at h
        simp only [Option.some.injEq, Prod.mk.injEq] at h
        obtain ⟨hg, hk⟩ := h
        subst hg
        subst hk
        refine ⟨⟨fun _ => hcol, fun _ => rfl⟩, fun _ => ⟨?_, ?_, ?_⟩⟩
        · simp [max_length, move]
        · simp [max_length]
        · exact ⟨r1, rest1, hr1, r2, rest2, hr2⟩
  · rw [if_neg (fun hmem => hcol (hcond.mp hmem))] at h
    repeat' split at h
    all_goals first
      | exact Option.noConfusion h
      | (simp only [Option.some.injEq, Prod.mk.injEq] at h
         obtain ⟨hg, hk⟩ := h
         subst hg
         subst hk
         exact ⟨iff_of_false (by decide) hcol, fun hX => absurd hX (by decide)⟩)

/-- C5 witness: a genuine self-collision tick (length-5 snake moving
DOWN onto an interior body cell) instantiating the amended
reset-condition theorem, reset branch included: the body collapses,
the direction becomes RIGHT, and both relocation calls exclude the
fresh single-cell body (the poison call additionally the new apple). -/
theorem C5_witness :
    (TickKind.selfCollision = TickKind.selfCollision ↔
        get_head_position_dir gReset.snake gReset.snake.direction ∈
          ([(80, 100), (80, 120), (100, 120), (120, 120)] :
            List Cell).dropLast) ∧
    (TickKind.selfCollision = TickKind.selfCollision →
        gResetPost.snake.positions = [gReset.snake.position] ∧
        gResetPost.snake.direction = RIGHT ∧
        (∃ r1 rest1, randomize_position gResetPost.snake.positions
              [(0, 0), (20, 0)] = some (gResetPost.apple, r1, rest1) ∧
          ∃ r2 rest2, randomize_position
              (get_used_cells gResetPost.snake.positions gResetPost.apple)
              rest1 = some (gResetPost.poison, r2, rest2))) :=
  C5_reset_condition gReset [(0, 0), (20, 0)] gResetPost
    TickKind.selfCollision (100, 100)
    [(80, 100), (80, 120), (100, 120), (120, 120)] rfl (by decide) (by decide)

/-- C6 (amended): when the excluded list contains every samplable grid
cell, the relocation never completes: every finite stream of valid
random choices is rejected wholesale and yields no result (the Python
recurses unboundedly; no `NoFreeCellError` exists in the code). -/
theorem C6_full_grid_relocation_never_completes
    (used_cells choices : List Cell)
    (hcover : ∀ c : Cell, validSample c → c ∈ used_cells)
    (hchoices : ∀ c ∈ choices, validSample c) :
    randomize_position used_cells choices = none := by
  revert hchoices
  induction choices with
  | nil => intro _; rfl
  | cons p ps ih =>
    intro hch
    have hp : p ∈ used_cells := hcover p (hch p (List.mem_cons_self p ps))
    have hrec := ih (fun c hc => hch c (List.mem_cons_of_mem p hc))
    simp only [randomize_position, if_pos hp, hrec]

/-- C6 witness: the full-grid exclusion instantiated with the concrete
list of all 768 cells and the choice stream [(0,0)]. -/
theorem C6_full_grid_witness :
    (∀ c ∈ ([((0 : Int), (0 : Int))] : List Cell), validSample c) ∧
    randomize_position all_cells [(0, 0)] = none :=
  ⟨by decide, C6_full_grid_relocation_never_completes all_cells [(0, 0)]
      (fun c hc => mem_all_cells_of_valid c hc) (by decide)⟩

/-- C7: for every snake whose head is a valid grid cell and every one
of the four unit directions, the wrapped next head (x plus dx·20 mod
640, y plus dy·20 mod 480) is again a valid grid cell; and a head at
the rightmost column, pixel (620,100) = grid (31,5), moving RIGHT wraps
to pixel (0,100) = grid (0,5). -/
theorem C7_wrap_stays_on_grid (s : Snake) (d : Cell)
    (hc : alignedCell (get_head_position s)) (hd : d ∈ directions) :
    alignedCell (get_head_position_dir s d) ∧
    get_head_position_dir { snake0 with positions := [(620, 100)] } RIGHT =
      (0, 100) :=
  ⟨wrap_aligned s d hc hd, by decide⟩

/-- C7 witness: the wrap theorem instantiated at the right-edge cell
(620,100) moving RIGHT. -/
theorem C7_witness :
    alignedCell (get_head_position { snake0 with positions := [(620, 100)] }) ∧
    RIGHT ∈ directions ∧
    (alignedCell
        (get_head_position_dir { snake0 with positions := [(620, 100)] } RIGHT) ∧
      get_head_position_dir { snake0 with positions := [(620, 100)] } RIGHT =
        (0, 100)) :=
  ⟨by decide, by decide,
   C7_wrap_stays_on_grid { snake0 with positions := [(620, 100)] } RIGHT
     (by decide) (by decide)⟩

/-- C8: in a tick whose next head equals the poison cell (and triggers
neither the reset branch nor the apple branch), the tick takes the
poison branch; the post-tick length is the pre-tick length minus one
when the pre-tick length exceeds one, and stays one when the pre-tick
length is one; and the poison is relocated by a call whose excluded
list is exactly the post-tick body. -/
theorem C8_poison_tick (g : GameState) (choices : List Cell)
    (g' : GameState) (k : TickKind) (p0 : Cell) (rest : List Cell)
    (hpos : g.snake.positions = p0 :: rest)
    (hnores : get_head_position_dir g.snake g.snake.direction ∉
        g.snake.positions.dropLast)
    (hnap : get_head_position_dir g.snake g.snake.direction ≠ g.apple)
    (hpo : get_head_position_dir g.snake g.snake.direction = g.poison)
    (h : tick g [] choices = some (g', k)) :
    k = TickKind.atePoison ∧
    (1 < g.snake.positions.length →
        g'.snake.positions.length = g.snake.positions.length - 1) ∧
    (g.snake.positions.length = 1 → g'.snake.positions.length = 1) ∧
    (∃ r rest2, randomize_position g'.snake.positions choices =
        some (g'.poison, r, rest2)) := by
  have hm := move_positions_cons g.snake p0 rest hpos
  rw [hpos] at hnores
  simp only [tick, handle_keys, List.foldl, get_head_position, hm,
    List.headI, List.drop_succ_cons, List.drop_zero] at h
  rw [if_neg hnores, if_neg hnap, if_pos hpo] at h
  by_cases hlen :
      (get_head_position_dir g.snake g.snake.direction ::
        (p0 :: rest).dropLast).length > 1
  · rw [if_pos hlen] at h
    dsimp only at h
    cases hr : randomize_position
        ((get_head_position_dir g.snake g.snake.direction ::
          (p0 :: rest).dropLast).dropLast) choices with
    | none => rw [hr] at h; exact Option.noConfusion h
    | some trip =>
      obtain ⟨po, r, rest2⟩ := trip
      rw [hr] at h
      simp only [Option.some.injEq, Prod.mk.injEq] at h
      obtain ⟨hg, hk⟩ := h
      subst hg
      subst hk
      refine ⟨rfl, ?_, ?_, ?_⟩
      · intro hgt
        simp only [max_length, hpos, List.length_dropLast, List.length_cons]
        simp only [List.length_cons, List.length_dropLast] at hlen
        omega
      · intro h1
        rw [hpos] at h1
        simp only [List.length_cons, List.length_dropLast] at hlen
        simp only [List.length_cons] at h1
        omega
      · exact ⟨r, rest2, by simp only [max_length]; exact hr⟩
  · rw [if_neg hlen] at h
    rw [hm] at h
    cases hr : randomize_position
        (get_head_position_dir g.snake g.snake.direction ::
          (p0 :: rest).dropLast) choices with
    | none => rw [hr] at h; exact Option.noConfusion h
    | some trip =>
      obtain ⟨po, r, rest2⟩ := trip
      rw [hr] at h
      simp only [Option.some.injEq, Prod.mk.injEq] at h
      obtain ⟨hg, hk⟩ := h
      subst hg
      subst hk
      simp only [List.length_cons, List.length_dropLast] at hlen
      refine ⟨rfl, ?_, ?_, ?_⟩
      · intro hgt
        rw [hpos] at hgt
        simp only [List.length_cons] at hgt
        omega
      · intro h1
        simp only [max_length]
        rw [hm]
        simp only [List.length_cons, List.length_dropLast]
        omega
      · exact ⟨r, rest2, by simp only [max_length]; rw [hm]; exact hr⟩

/-- C8 witness: the poison-tick theorem instantiated at a length-2
snake eating the poison at (120,100) with choice stream [(200,200)]. -/
theorem C8_witness :
    TickKind.atePoison = TickKind.atePoison ∧
    (1 < gPoison.snake.positions.length →
        gPoisonPost.snake.positions.length =
          gPoison.snake.positions.length - 1) ∧
    (gPoison.snake.positions.length = 1 →
        gPoisonPost.snake.positions.length = 1) ∧
    (∃ r rest2, randomize_position gPoisonPost.snake.positions [(200, 200)] =
        some (gPoisonPost.poison, r, rest2)) :=
  C8_poison_tick gPoison [(200, 200)] gPoisonPost TickKind.atePoison
    (100, 100) [(80, 100)] rfl (by decide) (by decide) (by decide) (by decide)

/-- C9: the stored maximum-length counter never decreases: not across a
single tick, not across any sequence of ticks; `reset` leaves it
unchanged; and the `max_length` property updates it to the current body
length exactly when that length exceeds the stored value. -/
theorem C9_max_length_monotone :
    (∀ g events choices g' k, tick g events choices = some (g', k) →
        g.snake.maxLength ≤ g'.snake.maxLength) ∧
    (∀ g runs g', ticks g runs = some g' →
        g.snake.maxLength ≤ g'.snake.maxLength) ∧
    (∀ (s : Snake) (d : Cell), (reset s d).maxLength = s.maxLength) ∧
    (∀ s : Snake, (max_length s).1.maxLength =
        if s.positions.length > s.maxLength then s.positions.length
        else s.maxLength) :=
  ⟨fun g events choices g' k h => tick_maxLength_mono g events choices g' k h,
   fun g runs g' h => ticks_maxLength_mono runs g g' h,
   fun _ _ => rfl, fun _ => rfl⟩

/-- C9 witness: monotonicity applied to a concrete one-tick run from a
snake with stored maximum 7. -/
theorem C9_witness :
    ticks gMax [([], [])] = some gMaxPost ∧
    gMax.snake.maxLength ≤ gMaxPost.snake.maxLength :=
  ⟨by decide, C9_max_length_monotone.2.1 gMax [([], [])] gMaxPost (by decide)⟩

/-- C10: grid alignment is an invariant of every reachable state: if
the game is initialised with a stream of genuine `random.choice`
outcomes and then any sequence of ticks (arbitrary key events, valid
choice streams) runs to completion, both the initial state and the
final state have every snake-body cell, the stored start cell and both
item cells on the 20-pixel lattice inside the 640×480 screen (and the
direction is one of the four unit vectors). -/
theorem C10_reachable_states_grid_aligned
    (init_choices : List Cell) (runs : List (List KeyEvent × List Cell))
    (g0 gFin : GameState)
    (hinit : ∀ c ∈ init_choices, validSample c)
    (hruns : ∀ r ∈ runs, ∀ c ∈ r.2, validSample c)
    (h0 : initGame init_choices = some g0)
    (h : ticks g0 runs = some gFin) :
    AlignedState g0 ∧ AlignedState gFin :=
  have ha := initGame_aligned init_choices g0 hinit h0
  ⟨ha, ticks_preserves_aligned runs g0 gFin ha hruns h⟩

/-- C10 witness: the alignment theorem instantiated at the concrete
initialisation stream [(0,0),(20,0)] followed by one ordinary tick. -/
theorem C10_witness : AlignedState gInit ∧ AlignedState gInitPost :=
  C10_reachable_states_grid_aligned [(0, 0), (20, 0)] [([], [])]
    gInit gInitPost (by decide) (by decide) (by decide) (by decide)

end TheSnake



